import Mathlib

/-!
Verification of ps-launcher (src/ps-launcher.cpp), a minimal Windows
launcher that assembles a quoted PowerShell command line and spawns it.

Modelling conventions (shallow embedding):
* wide-character strings (`WCHAR*`) are lists of characters (`Str`);
* the command buffer `WCHAR cmd[CMD_BUFFER_SIZE]` is represented by the
  list of characters written before the null terminator; the terminator
  cell is accounted for by the `+ 1` in capacity statements, matching
  `AppendStr`, which refuses an append when `curLen + srcLen >= destSize`
  and otherwise writes `dest[*curLen] = 0` at index `curLen + srcLen`;
* fallible appends return `Option Str` (`none` = the C function returned
  `false` and the run aborts);
* the host OS is an explicit environment (`Env`): the parsed argument
  vector of `CommandLineToArgvW`, the `GetSystemDirectoryW` result (the
  empty string models a failed query, mirroring a 0 return), a file
  existence oracle for `GetFileAttributesW`, and the `CreateProcessW`
  outcome as a function of the command line;
* the model reflects the default build: `ENABLE_ERROR_DIALOGS` is not
  defined, so `ShowError` is the no-op macro of line 25 and contributes
  no observable action; the only interactive display in the program is
  the unconditional usage `MessageBoxW` of lines 226-238, recorded in
  the `usageShown` field of the result.
-/

abbrev Str := List Char

/-- Capacity of the command-line buffer (`#define CMD_BUFFER_SIZE 1024`). -/
def CMD_BUFFER_SIZE : Nat := 1024

/-- Windows `MAX_PATH` constant used for `psPath`. -/
def MAX_PATH : Nat := 260

/-- `AppendStr` (lines 58-145): append `src` to the buffer whose current
contents are `dest`, inside a buffer of `destSize` cells.  Fails (returns
`none`) exactly when `*curLen + srcLen >= destSize`; on success the
contents become `dest ++ src` and a null terminator is written at index
`(dest ++ src).length`. -/
def AppendStr (destSize : Nat) (dest src : Str) : Option Str :=
  if dest.length + src.length ≥ destSize then none
  else some (dest ++ src)

/-- `AppendEscaped` (lines 165-184): copy `src` character by character,
replacing each double quote by the two-character sequence `\"`. -/
def AppendEscaped (destSize : Nat) (dest : Str) : Str → Option Str
  | [] => some dest
  | c :: rest =>
    match (if c = '"' then AppendStr destSize dest ['\\', '"']
           else AppendStr destSize dest [c]) with
    | none => none
    | some d => AppendEscaped destSize d rest

/-- Pure form of the transformation `AppendEscaped` applies to its source:
every embedded double quote becomes backslash double-quote. -/
def escapeQuotes : Str → Str
  | [] => []
  | c :: rest => (if c = '"' then ['\\', '"'] else [c]) ++ escapeQuotes rest

/-- The direct quote-character pushes of WinMain
(`if (pos < CMD_BUFFER_SIZE - 1) { cmd[pos++] = '"'; cmd[pos] = 0; }`,
lines 320-331 and the three repetitions). -/
def pushQuote (dest : Str) : Option Str :=
  if dest.length < CMD_BUFFER_SIZE - 1 then some (dest ++ ['"']) else none

/-- `alreadyQuoted` test of line 426:
`argLen >= 2 && args[i][0] == '"' && args[i][argLen-1] == '"'`. -/
def alreadyQuoted (s : Str) : Bool :=
  decide (2 ≤ s.length) && (s.getD 0 ' ' == '"') && (s.getD (s.length - 1) ' ' == '"')

/-- Case-insensitive string equality modelling `lstrcmpiW(a, b) == 0`. -/
def strieq (a b : Str) : Bool :=
  a.map Char.toLower == b.map Char.toLower

/-- The literal flag token `-Script` of line 223. -/
def flagScript : Str := "-Script".toList

/-- The fixed relative interpreter suffix (line 280). -/
def psRelative : Str := "WindowsPowerShell\\v1.0\\powershell.exe".toList

/-- The fixed interpreter switches appended at lines 356-357,
with their leading and trailing space. -/
def psFlags : Str := " -NonInteractive -NoProfile -ExecutionPolicy Bypass -File ".toList

/-- The separator adjustment of lines 263-277: keep the directory as-is
when it already ends in a backslash, append one when there is room, and
fail (`System directory path too long`) otherwise. -/
def sepBase (sysDir : Str) : Option Str :=
  if sysDir.getLast? = some '\\' then some sysDir
  else if sysDir.length < MAX_PATH - 1 then some (sysDir ++ ['\\'])
  else none

/-- Interpreter path construction (lines 249-291): take the
`GetSystemDirectoryW` result, fail if the query failed (length 0) or the
returned length exceeds `MAX_PATH - 1`; adjust the separator via
`sepBase`; fail if the concatenation with `psRelative` would reach
`MAX_PATH`; otherwise return the concatenated path. -/
def interpPath (sysDir : Str) : Option Str :=
  if sysDir.length = 0 ∨ sysDir.length > MAX_PATH - 1 then none
  else
    match sepBase sysDir with
    | none => none
    | some base =>
      if base.length + psRelative.length ≥ MAX_PATH then none
      else some (base ++ psRelative)

/-- Processing of one forwarded parameter after the semicolon scan
(lines 415-486): append the separating space; if the parameter is already
quoted append it verbatim; otherwise open a fresh quote, append the
parameter with embedded quotes escaped when it has any, and close the
quote. -/
def appendParam (cmd p : Str) : Option Str :=
  match AppendStr CMD_BUFFER_SIZE cmd [' '] with
  | none => none
  | some c1 =>
    if alreadyQuoted p then AppendStr CMD_BUFFER_SIZE c1 p
    else
      match AppendStr CMD_BUFFER_SIZE c1 ['"'] with
      | none => none
      | some c2 =>
        match (if p.any (fun c => c = '"') then AppendEscaped CMD_BUFFER_SIZE c2 p
               else AppendStr CMD_BUFFER_SIZE c2 p) with
        | none => none
        | some c3 => AppendStr CMD_BUFFER_SIZE c3 ['"']

/-- The parameter loop of lines 400-487: for each forwarded parameter in
order, first scan it for a semicolon (aborting the run when one is
found), then append it via `appendParam`. -/
def buildParams (cmd : Str) : List Str → Option Str
  | [] => some cmd
  | p :: rest =>
    if p.any (fun c => c = ';') then none
    else
      match appendParam cmd p with
      | none => none
      | some c => buildParams c rest

/-- Command-line assembly of lines 316-487: quoted interpreter path,
the fixed switches, quoted script path, then the forwarded parameters. -/
def buildCmd (psPath scriptPath : Str) (params : List Str) : Option Str :=
  match pushQuote [] with
  | none => none
  | some c0 =>
    match AppendStr CMD_BUFFER_SIZE c0 psPath with
    | none => none
    | some c1 =>
      match pushQuote c1 with
      | none => none
      | some c2 =>
        match AppendStr CMD_BUFFER_SIZE c2 psFlags with
        | none => none
        | some c3 =>
          match pushQuote c3 with
          | none => none
          | some c4 =>
            match AppendStr CMD_BUFFER_SIZE c4 scriptPath with
            | none => none
            | some c5 =>
              match pushQuote c5 with
              | none => none
              | some c6 => buildParams c6 params

/-- Outcome of the `CreateProcessW` call: failure with a `GetLastError`
code, or success with the child's eventual exit code. -/
inductive SpawnOutcome where
  | fail (err : Nat)
  | ok (childExit : Nat)

/-- The host environment of one launcher run. -/
structure Env where
  /-- `CommandLineToArgvW` succeeded (returned a non-null array). -/
  argvOk : Bool
  /-- The parsed argument vector (index 0 is the program path). -/
  args : List Str
  /-- The `GetSystemDirectoryW` result; the empty string models a failed
  query (a 0 return). -/
  sysDir : Str
  /-- `GetFileAttributesW path != INVALID_FILE_ATTRIBUTES`. -/
  fileExists : Str → Bool
  /-- The `CreateProcessW` outcome for a given command line. -/
  spawn : Str → SpawnOutcome

/-- Observable outcome of one launcher run. -/
structure RunResult where
  /-- The launcher's own exit code. -/
  exitCode : Nat
  /-- The command line handed to `CreateProcessW`, when the call was
  reached; `none` when no child-process creation was attempted. -/
  attempted : Option Str
  /-- A child process was actually created. -/
  created : Bool
  /-- The unconditional usage-help `MessageBoxW` of lines 226-238 was
  displayed. -/
  usageShown : Bool
  /-- Both child handles were closed after the exit code was read. -/
  handlesClosed : Bool
deriving DecidableEq

/-- A failing run: exit code 1, no child-creation attempt. -/
def failResult (usage : Bool) : RunResult :=
  { exitCode := 1, attempted := none, created := false
    usageShown := usage, handlesClosed := false }

/-- `WinMain` (lines 192-548), in the default (silent) build. -/
def winMain (env : Env) : RunResult :=
  if env.argvOk = false then failResult false
  else if env.args.length < 3 ∨ strieq (env.args.getD 1 []) flagScript = false then
    failResult true
  else
    match interpPath env.sysDir with
    | none => failResult false
    | some psPath =>
      if env.fileExists psPath = false then failResult false
      else if env.fileExists (env.args.getD 2 []) = false then failResult false
      else
        match buildCmd psPath (env.args.getD 2 []) (env.args.drop 3) with
        | none => failResult false
        | some cmd =>
          match env.spawn cmd with
          | SpawnOutcome.fail err =>
            { exitCode := err, attempted := some cmd, created := false
              usageShown := false, handlesClosed := false }
          | SpawnOutcome.ok code =>
            { exitCode := code, attempted := some cmd, created := true
              usageShown := false, handlesClosed := true }

/-- The full build step performed by a run of `winMain`:
interpreter-path resolution followed by command-line assembly. -/
def buildCmdOfEnv (env : Env) : Option Str :=
  match interpPath env.sysDir with
  | none => none
  | some psPath => buildCmd psPath (env.args.getD 2 []) (env.args.drop 3)

/-- The text a non-semicolon forwarded parameter contributes to the
command line (after its separating space). -/
def renderParam (p : Str) : Str :=
  if alreadyQuoted p then p
  else '"' :: ((if p.any (fun c => c = '"') then escapeQuotes p else p) ++ ['"'])

/-- The fully assembled command line on a successful build. -/
def renderCmd (psPath scriptPath : Str) (params : List Str) : Str :=
  ['"'] ++ psPath ++ ['"'] ++ psFlags ++ ['"'] ++ scriptPath ++ ['"'] ++
    (params.map (fun p => ' ' :: renderParam p)).flatten

example : escapeQuotes ['a', '"', 'b'] = ['a', '\\', '"', 'b'] := by decide
example : alreadyQuoted ['"', 'a', '"'] = true := by decide
example : alreadyQuoted ['"'] = false := by decide
example : alreadyQuoted [] = false := by decide
example : strieq "-script".toList flagScript = true := by decide
example : psRelative.length = 37 := by decide

/-- A successful `AppendStr` appends exactly `src` (no truncation) and the
new contents plus the null terminator still fit in the buffer. -/
theorem AppendStr_eq_some {sz : Nat} {dest src out : Str}
    (h : AppendStr sz dest src = some out) :
    out = dest ++ src ∧ out.length + 1 ≤ sz := by
  unfold AppendStr at h
  split at h
  · exact absurd h (by simp)
  · next hlt =>
    cases h
    refine ⟨rfl, ?_⟩
    simp only [List.length_append]
    omega

/-- `AppendStr` fails exactly when the appended text together with the
null terminator would no longer fit. -/
theorem AppendStr_eq_none {sz : Nat} {dest src : Str} :
    AppendStr sz dest src = none ↔ sz ≤ dest.length + src.length := by
  unfold AppendStr
  split
  · next hge => simpa using hge
  · next hlt => simp; omega

/-- A successful direct quote push appends exactly one double quote and
keeps room for the null terminator. -/
theorem pushQuote_eq_some {dest out : Str}
    (h : pushQuote dest = some out) :
    out = dest ++ ['"'] ∧ out.length + 1 ≤ CMD_BUFFER_SIZE := by
  unfold pushQuote at h
  split at h
  · next hlt =>
    cases h
    refine ⟨rfl, ?_⟩
    simp only [List.length_append, List.length_cons, List.length_nil]
    unfold CMD_BUFFER_SIZE at hlt ⊢
    omega
  · exact absurd h (by simp)

/-- The direct quote push fails exactly when the quote plus the null
terminator would no longer fit. -/
theorem pushQuote_eq_none {dest : Str} :
    pushQuote dest = none ↔ CMD_BUFFER_SIZE ≤ dest.length + 1 := by
  unfold pushQuote
  split
  · next hlt => simp; omega
  · next hge => simp at hge ⊢; omega

/-- A successful `AppendEscaped` appends exactly the source with each
embedded double quote replaced by backslash double-quote. -/
theorem AppendEscaped_eq_some {sz : Nat} (src : Str) :
    ∀ (dest out : Str), AppendEscaped sz dest src = some out →
      out = dest ++ escapeQuotes src := by
  induction src with
  | nil =>
    intro dest out h
    simp only [AppendEscaped, Option.some.injEq] at h
    simp [escapeQuotes, ← h]
  | cons c rest ih =>
    intro dest out h
    unfold AppendEscaped at h
    split at h
    · exact absurd h (by simp)
    · next d hd =>
      have hrest := ih d out h
      by_cases hc : c = '"'
      · rw [if_pos hc] at hd
        obtain ⟨hd1, _⟩ := AppendStr_eq_some hd
        subst hc
        simp [escapeQuotes, hrest, hd1]
      · rw [if_neg hc] at hd
        obtain ⟨hd1, _⟩ := AppendStr_eq_some hd
        simp [escapeQuotes, hrest, hd1, if_neg hc]

/-- `escapeQuotes` is the per-character substitution that replaces each
double quote with the two-character sequence backslash double-quote. -/
theorem escapeQuotes_eq_flatMap (p : Str) :
    escapeQuotes p = p.flatMap (fun c => if c = '"' then ['\\', '"'] else [c]) := by
  induction p with
  | nil => simp [escapeQuotes]
  | cons c rest ih => simp [escapeQuotes, ih]

/-- A successful `appendParam` appends exactly the separating space
followed by the rendered parameter. -/
theorem appendParam_eq_some {cmd p out : Str}
    (h : appendParam cmd p = some out) :
    out = cmd ++ ' ' :: renderParam p := by
  unfold appendParam at h
  split at h
  · exact absurd h (by simp)
  · next c1 h1 =>
    obtain ⟨e1, _⟩ := AppendStr_eq_some h1
    by_cases hq : alreadyQuoted p = true
    · rw [if_pos hq] at h
      obtain ⟨e2, _⟩ := AppendStr_eq_some h
      simp [renderParam, hq, e2, e1]
    · rw [if_neg hq] at h
      split at h
      · exact absurd h (by simp)
      · next c2 h2 =>
        obtain ⟨e2, _⟩ := AppendStr_eq_some h2
        split at h
        · exact absurd h (by simp)
        · next c3 h3 =>
          obtain ⟨e4, _⟩ := AppendStr_eq_some h
          by_cases ha : p.any (fun c => c = '"') = true
          · rw [if_pos ha] at h3
            have e3 := AppendEscaped_eq_some p c2 c3 h3
            simp [renderParam, hq, ha, e4, e3, e2, e1]
          · rw [if_neg ha] at h3
            obtain ⟨e3, _⟩ := AppendStr_eq_some h3
            simp [renderParam, hq, ha, e4, e3, e2, e1]

/-- A successful parameter loop appends exactly each parameter's space
and rendered form, in the original order. -/
theorem buildParams_eq_some (params : List Str) :
    ∀ (cmd out : Str), buildParams cmd params = some out →
      out = cmd ++ (params.map (fun p => ' ' :: renderParam p)).flatten := by
  induction params with
  | nil =>
    intro cmd out h
    simp only [buildParams, Option.some.injEq] at h
    simp [← h]
  | cons p rest ih =>
    intro cmd out h
    unfold buildParams at h
    split at h
    · exact absurd h (by simp)
    · split at h
      · exact absurd h (by simp)
      · next c hc =>
        have hrest := ih c out h
        have hp := appendParam_eq_some hc
        simp [hrest, hp]

/-- The parameter loop aborts whenever some forwarded parameter contains
a semicolon. -/
theorem buildParams_none_of_semicolon (params : List Str)
    (h : params.any (fun p => p.any (fun c => c = ';')) = true) :
    ∀ (cmd : Str), buildParams cmd params = none := by
  induction params with
  | nil => simp at h
  | cons p rest ih =>
    intro cmd
    unfold buildParams
    by_cases hp : p.any (fun c => c = ';') = true
    · rw [if_pos hp]
    · rw [if_neg hp]
      have hrest : rest.any (fun p => p.any (fun c => c = ';')) = true := by
        simp only [List.any_cons, Bool.or_eq_true] at h
        rcases h with h | h
        · exact absurd h hp
        · exact h
      cases hap : appendParam cmd p with
      | none => rfl
      | some c => exact ih hrest c

/-- A successful full assembly produces exactly the rendered command
line: quoted interpreter, fixed switches, quoted script, rendered
parameters. -/
theorem buildCmd_eq_some {psPath scriptPath : Str} {params : List Str} {out : Str}
    (h : buildCmd psPath scriptPath params = some out) :
    out = renderCmd psPath scriptPath params := by
  unfold buildCmd at h
  split at h
  · exact absurd h (by simp)
  next c0 h0 =>
  split at h
  · exact absurd h (by simp)
  next c1 h1 =>
  split at h
  · exact absurd h (by simp)
  next c2 h2 =>
  split at h
  · exact absurd h (by simp)
  next c3 h3 =>
  split at h
  · exact absurd h (by simp)
  next c4 h4 =>
  split at h
  · exact absurd h (by simp)
  next c5 h5 =>
  split at h
  · exact absurd h (by simp)
  next c6 h6 =>
  obtain ⟨e0, _⟩ := pushQuote_eq_some h0
  obtain ⟨e1, _⟩ := AppendStr_eq_some h1
  obtain ⟨e2, _⟩ := pushQuote_eq_some h2
  obtain ⟨e3, _⟩ := AppendStr_eq_some h3
  obtain ⟨e4, _⟩ := pushQuote_eq_some h4
  obtain ⟨e5, _⟩ := AppendStr_eq_some h5
  obtain ⟨e6, _⟩ := pushQuote_eq_some h6
  have e7 := buildParams_eq_some params c6 out h
  simp [renderCmd, e7, e6, e5, e4, e3, e2, e1, e0]

/-- The full assembly aborts whenever some forwarded parameter contains
a semicolon. -/
theorem buildCmd_none_of_semicolon {psPath scriptPath : Str} {params : List Str}
    (h : params.any (fun p => p.any (fun c => c = ';')) = true) :
    buildCmd psPath scriptPath params = none := by
  unfold buildCmd
  split
  · rfl
  split
  · rfl
  split
  · rfl
  split
  · rfl
  split
  · rfl
  split
  · rfl
  split
  · rfl
  exact buildParams_none_of_semicolon params h _

/-- Case analysis of one run: either the run fails locally (exit code 1,
no child-creation attempt) or every validation passed, the command line
was assembled, and the run ended in one of the two spawn outcomes. -/
theorem winMain_cases (env : Env) :
    ((winMain env).exitCode = 1 ∧ (winMain env).attempted = none ∧
     (winMain env).created = false ∧ (winMain env).handlesClosed = false)
  ∨ ∃ psPath cmd,
      env.argvOk = true ∧
      ¬ (env.args.length < 3 ∨ strieq (env.args.getD 1 []) flagScript = false) ∧
      interpPath env.sysDir = some psPath ∧
      env.fileExists psPath = true ∧
      env.fileExists (env.args.getD 2 []) = true ∧
      buildCmd psPath (env.args.getD 2 []) (env.args.drop 3) = some cmd ∧
      ((∃ err, env.spawn cmd = SpawnOutcome.fail err ∧
          winMain env = { exitCode := err, attempted := some cmd, created := false
                          usageShown := false, handlesClosed := false })
       ∨ (∃ code, env.spawn cmd = SpawnOutcome.ok code ∧
          winMain env = { exitCode := code, attempted := some cmd, created := true
                          usageShown := false, handlesClosed := true })) := by
  unfold winMain
  by_cases h1 : env.argvOk = false
  · rw [if_pos h1]; left; simp [failResult]
  · rw [if_neg h1]
    by_cases h2 : env.args.length < 3 ∨ strieq (env.args.getD 1 []) flagScript = false
    · rw [if_pos h2]; left; simp [failResult]
    · rw [if_neg h2]
      cases hip : interpPath env.sysDir with
      | none => left; simp [failResult]
      | some psPath =>
        dsimp only
        by_cases h3 : env.fileExists psPath = false
        · rw [if_pos h3]; left; simp [failResult]
        · rw [if_neg h3]
          by_cases h4 : env.fileExists (env.args.getD 2 []) = false
          · rw [if_pos h4]; left; simp [failResult]
          · rw [if_neg h4]
            cases hcmd : buildCmd psPath (env.args.getD 2 []) (env.args.drop 3) with
            | none => left; simp [failResult]
            | some cmd =>
              right
              refine ⟨psPath, cmd, by simpa using h1, h2, rfl,
                by simpa using h3, by simpa using h4, hcmd, ?_⟩
              dsimp only
              cases hsp : env.spawn cmd with
              | fail err => exact Or.inl ⟨err, rfl, rfl⟩
              | ok code => exact Or.inr ⟨code, rfl, rfl⟩

/-- Concrete program-path token for the test environments. -/
def argExe : Str := "ps-launcher.exe".toList

/-- Concrete script-path token for the test environments. -/
def argScript : Str := "C:\\test.ps1".toList

/-- Concrete system directory for the test environments. -/
def sysDir32 : Str := "C:\\Windows\\System32".toList

/-- Environment whose single forwarded parameter contains a semicolon. -/
def envSemi : Env where
  argvOk := true
  args := [argExe, flagScript, argScript, "a;b".toList]
  sysDir := sysDir32
  fileExists := fun _ => true
  spawn := fun _ => SpawnOutcome.ok 0

/-- Environment with an overlong forwarded parameter. -/
def envBig : Env where
  argvOk := true
  args := [argExe, flagScript, argScript, List.replicate 1100 'a']
  sysDir := sysDir32
  fileExists := fun _ => true
  spawn := fun _ => SpawnOutcome.ok 0

/-- Fully valid environment with two forwarded parameters (the second
pre-quoted, with a space inside). -/
def envRun : Env where
  argvOk := true
  args := [argExe, flagScript, argScript, "-Name".toList, "\"John Doe\"".toList]
  sysDir := sysDir32
  fileExists := fun _ => true
  spawn := fun _ => SpawnOutcome.ok 0

/-- Valid environment whose child exits with code 7. -/
def envChild : Env where
  argvOk := true
  args := [argExe, flagScript, argScript]
  sysDir := sysDir32
  fileExists := fun _ => true
  spawn := fun _ => SpawnOutcome.ok 7

/-- Valid environment whose process creation fails with error 5. -/
def envNoSpawn : Env where
  argvOk := true
  args := [argExe, flagScript, argScript]
  sysDir := sysDir32
  fileExists := fun _ => true
  spawn := fun _ => SpawnOutcome.fail 5

/-- Environment invoked with a single argument token. -/
def envUsage : Env where
  argvOk := true
  args := [argExe]
  sysDir := sysDir32
  fileExists := fun _ => true
  spawn := fun _ => SpawnOutcome.ok 0

/-- Environment whose system-directory query failed (length 0). -/
def envNoSys : Env where
  argvOk := true
  args := [argExe, flagScript, argScript]
  sysDir := []
  fileExists := fun _ => true
  spawn := fun _ => SpawnOutcome.ok 0

/-- C1: whenever any forwarded parameter (argument token at index 3 or
later) contains a semicolon anywhere, the run ends with exit code 1,
process creation is never attempted and no child process is created. -/
theorem spec2proof_C1 (env : Env)
    (h : (env.args.drop 3).any (fun p => p.any (fun c => c = ';')) = true) :
    (winMain env).exitCode = 1 ∧ (winMain env).attempted = none ∧
    (winMain env).created = false := by
  rcases winMain_cases env with ⟨he, ha, hc, _⟩ | ⟨ps, cmd, _, _, _, _, _, hb, _⟩
  · exact ⟨he, ha, hc⟩
  · rw [buildCmd_none_of_semicolon h] at hb
    exact absurd hb (by simp)

/-- C1 witness: the concrete environment `envSemi` forwards `a;b` and the
run aborts with exit code 1 and no child. -/
theorem spec2proof_C1_witness :
    ((envSemi.args.drop 3).any (fun p => p.any (fun c => c = ';')) = true) ∧
    ((winMain envSemi).exitCode = 1 ∧ (winMain envSemi).attempted = none ∧
     (winMain envSemi).created = false) :=
  ⟨by decide, spec2proof_C1 envSemi (by decide)⟩

/-- C2: an append that would make the contents plus null terminator
exceed the 1024-cell capacity fails; a successful append writes exactly
the requested text (never truncated) and stays within capacity with room
for the terminator; the same holds for the direct quote pushes; and when
the assembly of the run's command line fails, the run exits with code 1
and no child-process creation is attempted. -/
theorem spec2proof_C2 (env : Env) (dest src : Str)
    (hov : buildCmdOfEnv env = none) :
    ((dest.length + src.length + 1 > CMD_BUFFER_SIZE →
        AppendStr CMD_BUFFER_SIZE dest src = none)
     ∧ (∀ out, AppendStr CMD_BUFFER_SIZE dest src = some out →
          out = dest ++ src ∧ out.length + 1 ≤ CMD_BUFFER_SIZE)
     ∧ (dest.length + 1 + 1 > CMD_BUFFER_SIZE → pushQuote dest = none)
     ∧ (∀ out, pushQuote dest = some out →
          out = dest ++ ['"'] ∧ out.length + 1 ≤ CMD_BUFFER_SIZE))
    ∧ (winMain env).exitCode = 1 ∧ (winMain env).attempted = none := by
  refine ⟨⟨?_, ?_, ?_, ?_⟩, ?_⟩
  · intro hgt
    rw [AppendStr_eq_none]
    omega
  · intro out h
    exact AppendStr_eq_some h
  · intro hgt
    rw [pushQuote_eq_none]
    omega
  · intro out h
    exact pushQuote_eq_some h
  · rcases winMain_cases env with ⟨he, ha, _, _⟩ | ⟨ps, cmd, _, _, hip, _, _, hb, _⟩
    · exact ⟨he, ha⟩
    · exfalso
      unfold buildCmdOfEnv at hov
      rw [hip] at hov
      dsimp only at hov
      rw [hb] at hov
      exact absurd hov (by simp)

set_option maxRecDepth 40000 in
/-- C2 witness: in `envBig` the 1100-character parameter overflows the
buffer, so the run exits with code 1 and never attempts a spawn; the
append-level facts are instantiated at a concrete overlong append. -/
theorem spec2proof_C2_witness :
    buildCmdOfEnv envBig = none ∧
    (AppendStr CMD_BUFFER_SIZE [] (List.replicate 1100 'a') = none
     ∧ (winMain envBig).exitCode = 1 ∧ (winMain envBig).attempted = none) := by
  have h := spec2proof_C2 envBig [] (List.replicate 1100 'a') (by decide)
  exact ⟨by decide, h.1.1 (by decide), h.2⟩

/-- C3: whenever the launcher reaches process creation, the command line
it passes is exactly the quoted interpreter path, the literal run of the
five fixed switches, the quoted script path, and then each forwarded
parameter (in its rendered, quoted/escaped form) preceded by a single
space, in the original argument order. -/
theorem spec2proof_C3 (env : Env) (cmd : Str)
    (h : (winMain env).attempted = some cmd) :
    ∃ psPath, interpPath env.sysDir = some psPath ∧
      cmd = ['"'] ++ psPath ++ ['"'] ++ psFlags ++ ['"'] ++ (env.args.getD 2 []) ++ ['"']
        ++ ((env.args.drop 3).map (fun p => ' ' :: renderParam p)).flatten := by
  rcases winMain_cases env with ⟨_, ha, _, _⟩ | ⟨ps, cmd0, _, _, hip, _, _, hb, hsp⟩
  · rw [ha] at h
    exact absurd h (by simp)
  · have hc : cmd0 = cmd := by
      rcases hsp with ⟨err, _, hw⟩ | ⟨code, _, hw⟩ <;> rw [hw] at h <;> simpa using h
    subst hc
    refine ⟨ps, hip, ?_⟩
    have he := buildCmd_eq_some hb
    simpa [renderCmd] using he

set_option maxRecDepth 40000 in
/-- C3 witness: in the fully valid environment `envRun` the command line
passed to process creation has exactly the specified shape. -/
theorem spec2proof_C3_witness :
    ∃ psPath, interpPath envRun.sysDir = some psPath ∧
      (winMain envRun).attempted.getD []
        = ['"'] ++ psPath ++ ['"'] ++ psFlags ++ ['"'] ++ (envRun.args.getD 2 []) ++ ['"']
          ++ ((envRun.args.drop 3).map (fun p => ' ' :: renderParam p)).flatten :=
  spec2proof_C3 envRun ((winMain envRun).attempted.getD []) (by decide)

/-- C4: a forwarded parameter of length at least 2 whose first and last
characters are both double quotes is appended verbatim after the
separating space, with no re-quoting and no escaping. -/
theorem spec2proof_C4 (cmd p out : Str)
    (hlen : 2 ≤ p.length)
    (hfst : p.getD 0 ' ' = '"')
    (hlst : p.getD (p.length - 1) ' ' = '"')
    (h : appendParam cmd p = some out) :
    out = cmd ++ ' ' :: p := by
  have hq : alreadyQuoted p = true := by
    rw [List.getD_eq_getElem?_getD] at hfst hlst
    simp [alreadyQuoted, hlen, hfst, hlst]
  have he := appendParam_eq_some h
  rw [he]
  simp [renderParam, hq]

/-- C4 witness: the pre-quoted parameter `"a b"` is appended unmodified
after its separating space. -/
theorem spec2proof_C4_witness :
    (appendParam [] "\"a b\"".toList).getD [] = [] ++ ' ' :: "\"a b\"".toList :=
  spec2proof_C4 [] "\"a b\"".toList ((appendParam [] "\"a b\"".toList).getD [])
    (by decide) (by decide) (by decide) (by decide)

/-- C5: a forwarded parameter that is not pre-quoted is wrapped in one
fresh pair of unescaped double quotes; when it has embedded double
quotes each of them is replaced by the two-character sequence backslash
double-quote, and otherwise the text is copied unchanged inside the
wrapping quotes. -/
theorem spec2proof_C5 (cmd p out : Str)
    (hq : alreadyQuoted p = false)
    (h : appendParam cmd p = some out) :
    out = cmd ++ ' ' :: '"' ::
        ((if p.any (fun c => c = '"') then escapeQuotes p else p) ++ ['"'])
    ∧ escapeQuotes p = p.flatMap (fun c => if c = '"' then ['\\', '"'] else [c]) := by
  refine ⟨?_, escapeQuotes_eq_flatMap p⟩
  have he := appendParam_eq_some h
  rw [he]
  simp [renderParam, hq]

/-- C5 witness: the parameter `ab"c` (not pre-quoted, one embedded
quote) is escaped and wrapped. -/
theorem spec2proof_C5_witness :
    ((appendParam [] "ab\"c".toList).getD [] = [] ++ ' ' :: '"' ::
        ((if "ab\"c".toList.any (fun c => c = '"') then escapeQuotes "ab\"c".toList
          else "ab\"c".toList) ++ ['"']))
    ∧ escapeQuotes "ab\"c".toList
        = "ab\"c".toList.flatMap (fun c => if c = '"' then ['\\', '"'] else [c]) :=
  spec2proof_C5 [] "ab\"c".toList ((appendParam [] "ab\"c".toList).getD [])
    (by decide) (by decide)

/-- C6: when process creation is attempted and fails, the launcher's exit
code is the platform error code and no child process exists; when the
child is created and runs to completion, the launcher's exit code is
exactly the child's own exit code (including 0) and both handles are
closed after the code is read. -/
theorem spec2proof_C6 (env : Env) (cmd : Str)
    (h : (winMain env).attempted = some cmd) :
    (∀ err, env.spawn cmd = SpawnOutcome.fail err →
        (winMain env).exitCode = err ∧ (winMain env).created = false)
    ∧ (∀ code, env.spawn cmd = SpawnOutcome.ok code →
        (winMain env).exitCode = code ∧ (winMain env).created = true ∧
        (winMain env).handlesClosed = true) := by
  rcases winMain_cases env with ⟨_, ha, _, _⟩ | ⟨ps, cmd0, _, _, _, _, _, _, hsp⟩
  · rw [ha] at h
    exact absurd h (by simp)
  · have hc : cmd0 = cmd := by
      rcases hsp with ⟨err, _, hw⟩ | ⟨code, _, hw⟩ <;> rw [hw] at h <;> simpa using h
    subst hc
    rcases hsp with ⟨err0, hs0, hw⟩ | ⟨code0, hs0, hw⟩
    · constructor
      · intro err hse
        rw [hs0] at hse
        injection hse with he
        subst he
        rw [hw]
        exact ⟨rfl, rfl⟩
      · intro code hse
        rw [hs0] at hse
        exact SpawnOutcome.noConfusion hse
    · constructor
      · intro err hse
        rw [hs0] at hse
        exact SpawnOutcome.noConfusion hse
      · intro code hse
        rw [hs0] at hse
        injection hse with he
        subst he
        rw [hw]
        exact ⟨rfl, rfl, rfl⟩

set_option maxRecDepth 40000 in
/-- C6 witness: in `envNoSpawn` process creation fails with error 5 and
the launcher exits with 5; in `envChild` the child exits with 7 and the
launcher exits with 7 with both handles closed. -/
theorem spec2proof_C6_witness :
    ((winMain envNoSpawn).exitCode = 5 ∧ (winMain envNoSpawn).created = false)
    ∧ ((winMain envChild).exitCode = 7 ∧ (winMain envChild).created = true ∧
       (winMain envChild).handlesClosed = true) :=
  ⟨(spec2proof_C6 envNoSpawn ((winMain envNoSpawn).attempted.getD []) (by decide)).1 5 rfl,
   (spec2proof_C6 envChild ((winMain envChild).attempted.getD []) (by decide)).2 7 rfl⟩

/-- C7: with fewer than 3 argument tokens, or token 1 not a
case-insensitive match for the literal `-Script`, the launcher displays
the static usage help, exits with code 1, and never attempts to create a
child process. -/
theorem spec2proof_C7 (env : Env) (hok : env.argvOk = true)
    (h : env.args.length < 3 ∨ strieq (env.args.getD 1 []) flagScript = false) :
    (winMain env).exitCode = 1 ∧ (winMain env).usageShown = true ∧
    (winMain env).attempted = none := by
  have h1 : ¬ (env.argvOk = false) := by simp [hok]
  unfold winMain
  rw [if_neg h1, if_pos h]
  simp [failResult]

/-- C7 witness: invoked with a single argument token, the launcher shows
the usage help, exits with 1 and creates no child. -/
theorem spec2proof_C7_witness :
    (winMain envUsage).exitCode = 1 ∧ (winMain envUsage).usageShown = true ∧
    (winMain envUsage).attempted = none :=
  spec2proof_C7 envUsage rfl (Or.inl (by decide))

/-- A successfully resolved interpreter path is the system directory,
with a backslash appended when absent, followed by `psRelative`. -/
theorem interpPath_some_eq {sysDir out : Str} (h : interpPath sysDir = some out) :
    out = (if sysDir.getLast? = some '\\' then sysDir else sysDir ++ ['\\']) ++ psRelative := by
  unfold interpPath at h
  split at h
  · exact absurd h (by simp)
  · split at h
    · exact absurd h (by simp)
    · next base hbase =>
      split at h
      · exact absurd h (by simp)
      · have hout : out = base ++ psRelative := by simpa using h.symm
        unfold sepBase at hbase
        split at hbase
        · next hlast =>
          rw [if_pos hlast]
          have hb : base = sysDir := by simpa using hbase.symm
          rw [hout, hb]
        · next hlast =>
          rw [if_neg hlast]
          split at hbase
          · have hb : base = sysDir ++ ['\\'] := by simpa using hbase.symm
            rw [hout, hb]
          · exact absurd hbase (by simp)

/-- Resolution fails when the directory query failed (length 0) or its
result exceeds `MAX_PATH - 1`. -/
theorem interpPath_none_of_len {sysDir : Str}
    (h : sysDir.length = 0 ∨ sysDir.length > MAX_PATH - 1) :
    interpPath sysDir = none := by
  unfold interpPath
  rw [if_pos h]

/-- Resolution fails when a separator is needed but there is no room
for it. -/
theorem interpPath_none_of_sep {sysDir : Str}
    (h1 : ¬ sysDir.getLast? = some '\\') (h2 : ¬ sysDir.length < MAX_PATH - 1) :
    interpPath sysDir = none := by
  have hsb : sepBase sysDir = none := by
    unfold sepBase
    rw [if_neg h1, if_neg h2]
  unfold interpPath
  split
  · rfl
  · rw [hsb]

/-- Resolution fails when appending the fixed relative suffix would
reach `MAX_PATH`. -/
theorem interpPath_none_of_concat {sysDir : Str}
    (h : (if sysDir.getLast? = some '\\' then sysDir else sysDir ++ ['\\']).length
          + psRelative.length ≥ MAX_PATH) :
    interpPath sysDir = none := by
  unfold interpPath
  split
  · rfl
  · by_cases hb : sysDir.getLast? = some '\\'
    · rw [if_pos hb] at h
      have hsb : sepBase sysDir = some sysDir := by
        unfold sepBase
        rw [if_pos hb]
      rw [hsb]
      dsimp only
      rw [if_pos h]
    · rw [if_neg hb] at h
      by_cases h2 : sysDir.length < MAX_PATH - 1
      · have hsb : sepBase sysDir = some (sysDir ++ ['\\']) := by
          unfold sepBase
          rw [if_neg hb, if_pos h2]
        rw [hsb]
        dsimp only
        rw [if_pos h]
      · have hsb : sepBase sysDir = none := by
          unfold sepBase
          rw [if_neg hb, if_neg h2]
        rw [hsb]

/-- C8: the interpreter path is the system-binaries directory with a
backslash separator appended only when missing, followed by the fixed
relative suffix; resolution fails (and then the run exits with code 1
and never attempts to create a child) when the directory query fails,
either concatenation step would exceed `MAX_PATH`, or the resulting path
or the script path does not exist on disk. -/
theorem spec2proof_C8 (env : Env) (sysDir out : Str) :
    (interpPath sysDir = some out →
       out = (if sysDir.getLast? = some '\\' then sysDir else sysDir ++ ['\\']) ++ psRelative)
    ∧ (sysDir.length = 0 ∨ sysDir.length > MAX_PATH - 1 → interpPath sysDir = none)
    ∧ (¬ sysDir.getLast? = some '\\' → ¬ sysDir.length < MAX_PATH - 1 →
         interpPath sysDir = none)
    ∧ ((if sysDir.getLast? = some '\\' then sysDir else sysDir ++ ['\\']).length
          + psRelative.length ≥ MAX_PATH → interpPath sysDir = none)
    ∧ (interpPath env.sysDir = none →
         (winMain env).exitCode = 1 ∧ (winMain env).attempted = none)
    ∧ (∀ ps, interpPath env.sysDir = some ps → env.fileExists ps = false →
         (winMain env).exitCode = 1 ∧ (winMain env).attempted = none)
    ∧ (env.fileExists (env.args.getD 2 []) = false →
         (winMain env).exitCode = 1 ∧ (winMain env).attempted = none) := by
  refine ⟨interpPath_some_eq, interpPath_none_of_len, interpPath_none_of_sep,
    interpPath_none_of_concat, ?_, ?_, ?_⟩
  · intro hnone
    rcases winMain_cases env with ⟨he, ha, _, _⟩ | ⟨ps, cmd, _, _, hip, _, _, _, _⟩
    · exact ⟨he, ha⟩
    · rw [hnone] at hip
      exact absurd hip (by simp)
  · intro ps hip hfe
    rcases winMain_cases env with ⟨he, ha, _, _⟩ | ⟨ps0, cmd, _, _, hip0, hex, _, _, _⟩
    · exact ⟨he, ha⟩
    · rw [hip0] at hip
      have : ps0 = ps := by simpa using hip
      rw [this] at hex
      rw [hex] at hfe
      exact absurd hfe (by simp)
  · intro hfe
    rcases winMain_cases env with ⟨he, ha, _, _⟩ | ⟨ps0, cmd, _, _, _, _, hex, _, _⟩
    · exact ⟨he, ha⟩
    · rw [hex] at hfe
      exact absurd hfe (by simp)

/-- C8 witness: a failed directory query (empty result) makes resolution
fail and the run exit with code 1 and no child attempt; for the concrete
directory `C:\Windows\System32` the resolved path is the directory, a
separator, and the fixed relative suffix. -/
theorem spec2proof_C8_witness :
    interpPath ([] : Str) = none
    ∧ ((winMain envNoSys).exitCode = 1 ∧ (winMain envNoSys).attempted = none)
    ∧ (interpPath sysDir32).getD []
        = (if sysDir32.getLast? = some '\\' then sysDir32 else sysDir32 ++ ['\\'])
          ++ psRelative :=
  ⟨(spec2proof_C8 envNoSys [] []).2.1 (Or.inl rfl),
   (spec2proof_C8 envNoSys [] []).2.2.2.2.1 (by decide),
   (spec2proof_C8 envNoSys sysDir32 ((interpPath sysDir32).getD [])).1 (by decide)⟩

/-- C9 counterexample: invoked with a single argument token — a failing
input for which the run exits with code 1 — the default-build launcher
still produces an interactive display, namely the unconditional
usage-help message box of lines 226-238; so not every failure is
silent. -/
theorem spec2proof_C9_cex :
    (winMain envUsage).exitCode = 1 ∧ (winMain envUsage).usageShown = true := by
  decide

/-- C9 (amended): in the default build the usage-help message box is the
only interactive display, and it appears exactly on the usage-error path
(argument vector parsed, then fewer than 3 tokens or a mismatched flag);
every other failure of the launcher is silent. -/
theorem spec2proof_C9_amended (env : Env) :
    (winMain env).usageShown = true ↔
      env.argvOk = true ∧
        (env.args.length < 3 ∨ strieq (env.args.getD 1 []) flagScript = false) := by
  unfold winMain
  by_cases h1 : env.argvOk = false
  · rw [if_pos h1]
    exact iff_of_false (by simp [failResult])
      (fun hx => by rw [hx.1] at h1; exact absurd h1 (by simp))
  · rw [if_neg h1]
    have hok : env.argvOk = true := by simpa using h1
    by_cases h2 : env.args.length < 3 ∨ strieq (env.args.getD 1 []) flagScript = false
    · rw [if_pos h2]
      exact iff_of_true rfl ⟨hok, h2⟩
    · rw [if_neg h2]
      cases hip : interpPath env.sysDir with
      | none => exact iff_of_false (by simp [failResult]) (fun hx => h2 hx.2)
      | some ps =>
        dsimp only
        by_cases h3 : env.fileExists ps = false
        · rw [if_pos h3]
          exact iff_of_false (by simp [failResult]) (fun hx => h2 hx.2)
        · rw [if_neg h3]
          by_cases h4 : env.fileExists (env.args.getD 2 []) = false
          · rw [if_pos h4]
            exact iff_of_false (by simp [failResult]) (fun hx => h2 hx.2)
          · rw [if_neg h4]
            cases hcmd : buildCmd ps (env.args.getD 2 []) (env.args.drop 3) with
            | none => exact iff_of_false (by simp [failResult]) (fun hx => h2 hx.2)
            | some cmd =>
              dsimp only
              cases hsp : env.spawn cmd with
              | fail err => exact iff_of_false (by simp) (fun hx => h2 hx.2)
              | ok code => exact iff_of_false (by simp) (fun hx => h2 hx.2)

/-- C10: an empty forwarded parameter is never rejected: it is not
treated as pre-quoted (its length is below 2), the builder appends the
separating space followed by an empty pair of double quotes, and the
loop continues with the remaining parameters. -/
theorem spec2proof_C10 (cmd out : Str) (rest : List Str)
    (h : appendParam cmd [] = some out) :
    alreadyQuoted [] = false
    ∧ out = cmd ++ [' ', '"', '"']
    ∧ buildParams cmd ([] :: rest) = buildParams out rest := by
  refine ⟨rfl, ?_, ?_⟩
  · have he := appendParam_eq_some h
    have hr : renderParam [] = ['"', '"'] := by decide
    rw [he, hr]
  · have hstep : buildParams cmd ([] :: rest)
        = match appendParam cmd [] with
          | none => none
          | some c => buildParams c rest := rfl
    rw [hstep, h]

/-- C10 witness: with an empty buffer and no further parameters, the
empty parameter contributes exactly a space and an empty quote pair. -/
theorem spec2proof_C10_witness :
    alreadyQuoted [] = false
    ∧ (appendParam [] []).getD [] = [] ++ [' ', '"', '"']
    ∧ buildParams [] ([] :: []) = buildParams ((appendParam [] []).getD []) [] :=
  spec2proof_C10 [] ((appendParam [] []).getD []) [] (by decide)
